import Mathlib

/-!
Shallow embedding of the reconciliation-and-batch-download engine of the
musicCLI repository (src/musiccli/cli.py and src/musiccli/youtube.py),
with theorems settling the frozen claims about it.

External collaborators (the metadata database, the YouTube provider, the
filesystem) are modelled as explicit oracle functions passed to the
embedded code; Python dictionaries are modelled as insertion-ordered
association lists with Python dict semantics (updating an existing key
keeps its position, a new key is appended).
-/

/-- Python string truthiness for an optional string: `None` and the empty
string are falsy.  An absent dictionary key and a present `None` value are
both modelled as `none`. -/
def pyTruthy (o : Option String) : Bool :=
  match o with
  | none => false
  | some s => !(s == (""))

/-- `key in d` on a Python dict modelled as an association list. -/
def hasKey {α : Type} (m : List (String × α)) (k : String) : Bool :=
  m.any (fun p => p.1 == k)

/-- `d[key]` lookup (as `Option`) on a Python dict modelled as an
association list. -/
def dictFind {α : Type} (m : List (String × α)) (k : String) : Option α :=
  (m.find? (fun p => p.1 == k)).map (fun p => p.2)

/-- `d[key] = v` on a Python dict modelled as an association list: an
existing key is updated in place (keeping its insertion position), a new
key is appended at the end, as in Python 3.7+ dicts. -/
def dictInsert {α : Type} (m : List (String × α)) (k : String) (v : α) :
    List (String × α) :=
  if hasKey m k then m.map (fun p => if p.1 == k then (k, v) else p)
  else m ++ [(k, v)]

/-! ## Reconciliation engine (src/musiccli/cli.py, `playlist`, lines 434-476) -/

/-- A playlist track as consumed by the reconciliation loop: the fields of
the track dict that `cli.py` reads.  Absent keys are `none`. -/
structure PTrack where
  id : Option String
  name : Option String
  artists : Option String
  duration_ms : Option Nat
deriving DecidableEq

/-- A row of `get_tracks_by_ids` (src/musiccli/db.py, lines 312-368): the
metadata-lookup record for one track id. -/
structure DbTrack where
  name : Option String
  artists : Option String
  duration_ms : Option Nat
  album_name : Option String
  popularity : Option Nat
deriving DecidableEq

/-- A row of `get_tracks_file_info_batch` (src/musiccli/db.py, lines
371-410): the file-info record for one track id. -/
structure FileInfo where
  track_id : Option String
  filename : Option String
  status : Option String
  track_popularity : Option Nat
  sha256_with_embedded_meta : Option String
  reencoded_kbit_vbr : Option Nat
deriving DecidableEq

/-- The per-track result record built by the reconciliation loop
(cli.py lines 442-476).  `status` keeps the source's string literals. -/
structure RTrack where
  id : String
  name : String
  artists : String
  duration_ms : Nat
  album_name : Option String
  popularity : Option Nat
  file_info : Option FileInfo
  status : String
deriving DecidableEq

/-- The `stats` dict of the reconciliation loop (cli.py line 435). -/
structure PStats where
  total : Nat
  available : Nat
  missing : Nat
  not_in_db : Nat
deriving DecidableEq

/-- The body of the reconciliation loop for one track bearing a truthy id
(cli.py lines 442-474), minus the stats increments: builds the result
record, enriching it from the metadata row when present and attaching the
file-info record when present. -/
def classifyTrack (db : String → Option DbTrack) (fi : String → Option FileInfo)
    (track : PTrack) : RTrack :=
  let track_id := track.id.getD ("")
  let base : RTrack :=
    { id := track_id
      name := track.name.getD ("Unknown")
      artists := track.artists.getD ("Unknown")
      duration_ms := track.duration_ms.getD 0
      album_name := none
      popularity := none
      file_info := none
      status := ("") }
  match db track_id with
  | some dbt =>
    let enriched : RTrack :=
      { base with
        name := dbt.name.getD base.name
        artists := dbt.artists.getD base.artists
        duration_ms := dbt.duration_ms.getD base.duration_ms
        album_name := dbt.album_name
        popularity := dbt.popularity }
    match fi track_id with
    | some f =>
      if f.status = some ("success") then
        { enriched with file_info := some f, status := ("available") }
      else
        { enriched with file_info := some f, status := ("missing") }
    | none => { enriched with status := ("available") }
  | none => { base with status := ("not_in_db") }

/-- The stats increments of the reconciliation loop (cli.py lines 464,
467, 471, 474), keyed on the status string chosen in the same branch. -/
def statBump (s : PStats) (status : String) : PStats :=
  if status = ("available") then { s with available := s.available + 1 }
  else if status = ("missing") then { s with missing := s.missing + 1 }
  else if status = ("not_in_db") then { s with not_in_db := s.not_in_db + 1 }
  else s

/-- One iteration of the reconciliation loop (cli.py lines 437-476):
tracks without a truthy id are skipped (`continue`), all others are
classified and appended to the results list. -/
def reconcileStep (db : String → Option DbTrack) (fi : String → Option FileInfo)
    (acc : List RTrack × PStats) (track : PTrack) : List RTrack × PStats :=
  if pyTruthy track.id then
    let r := classifyTrack db fi track
    (acc.1 ++ [r], statBump acc.2 r.status)
  else acc

/-- The reconciliation pass of the `playlist` command (cli.py lines
434-476): one batched metadata lookup and one batched file-info lookup
(the two oracle arguments), then a fold over the tracks in playlist
order. -/
def playlistReconcile (db : String → Option DbTrack) (fi : String → Option FileInfo)
    (tracks : List PTrack) : List RTrack × PStats :=
  let init : PStats := { total := tracks.length, available := 0, missing := 0, not_in_db := 0 }
  tracks.foldl (reconcileStep db fi) ([], init)

/-- The classification rule exactly as the claim words it (spec section
4.1): absent from the metadata lookup means `not_in_db`; otherwise a
file-info record with success status means `available`, a file-info
record with any other status means `missing`, and no file-info record at
all means `available`.  Declared separately from `classifyTrack` so the
code's branch structure can be compared against the claim's. -/
def claimStatusRule (db : String → Option DbTrack) (fi : String → Option FileInfo)
    (track_id : String) : String :=
  if (db track_id).isNone then ("not_in_db")
  else
    match fi track_id with
    | some f =>
      if f.status = some ("success") then ("available") else ("missing")
    | none => ("available")

/-- The three-track example of the claim: metadata rows exist for `A` and
`B`, a success-status file-info record for `A`, an error-status file-info
record for `B`, and nothing for `C`. -/
def exDb : String → Option DbTrack := fun s =>
  if s = ("A") ∨ s = ("B") then
    some { name := none, artists := none, duration_ms := none,
           album_name := none, popularity := none }
  else none

/-- File-info oracle for the three-track example. -/
def exFi : String → Option FileInfo := fun s =>
  if s = ("A") then
    some { track_id := some ("A"), filename := some ("a.mp3"),
           status := some ("success"), track_popularity := none,
           sha256_with_embedded_meta := none, reencoded_kbit_vbr := none }
  else if s = ("B") then
    some { track_id := some ("B"), filename := none,
           status := some ("error"), track_popularity := none,
           sha256_with_embedded_meta := none, reencoded_kbit_vbr := none }
  else none

/-- The three tracks `A`, `B`, `C` of the example playlist. -/
def exTracks : List PTrack :=
  [ { id := some ("A"), name := some ("Song A"), artists := some ("Artist A"),
      duration_ms := some 200000 },
    { id := some ("B"), name := some ("Song B"), artists := some ("Artist B"),
      duration_ms := some 210000 },
    { id := some ("C"), name := some ("Song C"), artists := some ("Artist C"),
      duration_ms := some 220000 } ]

/-- A track whose dict has no `id` key: the reconciliation loop drops it. -/
def noIdTrack : PTrack :=
  { id := none, name := some ("Ghost"), artists := some ("Nobody"), duration_ms := some 1000 }

/-- A track with id `A` (used in small concrete inputs). -/
def idATrack : PTrack :=
  { id := some ("A"), name := some ("Song A"), artists := some ("Artist A"),
    duration_ms := some 200000 }

/-- The empty metadata-lookup oracle. -/
def emptyDb : String → Option DbTrack := fun _ => none

/-- The empty file-info oracle. -/
def emptyFi : String → Option FileInfo := fun _ => none

/-! ## Query cache and provider search (src/musiccli/youtube.py, lines 37-181) -/

/-- A raw search entry as returned by the provider (`yt-dlp` flat
extraction): the dictionary keys that `search_youtube` reads.  Absent keys
are `none`. -/
structure YtEntry where
  id : Option String
  title : Option String
  url : Option String
  duration : Option Nat
  channel : Option String
  uploader : Option String
  view_count : Option Nat
deriving DecidableEq

/-- Outcome of one `ydl.extract_info(search_url, download=False)` call:
an exception, a falsy result, or a result with an `entries` list whose
elements may be `None`. -/
inductive SearchResp where
  | exc : SearchResp
  | noResult : SearchResp
  | entries (es : List (Option YtEntry)) : SearchResp

/-- A formatted search result as built by `search_youtube`
(youtube.py lines 160-167). -/
structure YTrack where
  id : Option String
  title : Option String
  url : String
  duration : Nat
  channel : Option String
  view_count : Option Nat
deriving DecidableEq

/-- Python `a or b` on optional strings: the left value unless falsy. -/
def pyOrStr (a b : Option String) : Option String :=
  if pyTruthy a then a else b

/-- Python `f"...{x}"` of an optional string: `None` renders as the
literal text `None`. -/
def optStr (o : Option String) : String :=
  match o with
  | none => ("None")
  | some s => s

/-- Builds the result record for one usable entry (youtube.py lines
160-167); `duration` is the already-defaulted `e.get('duration') or 0`. -/
def mkYTrack (e : YtEntry) (duration : Nat) : YTrack :=
  { id := e.id
    title := e.title
    url := optStr (pyOrStr e.url (some (("https://www.youtube.com/watch?v=") ++ optStr e.id)))
    duration := duration
    channel := pyOrStr e.channel e.uploader
    view_count := e.view_count }

/-- The filter-and-format loop of `search_youtube` (youtube.py lines
150-170): `None` entries are skipped, entries longer than 900 seconds are
skipped, and the loop breaks once `limit + 3` results are collected. -/
def collectResults (limit : Nat) (acc : List YTrack) : List (Option YtEntry) → List YTrack
  | [] => acc
  | none :: rest => collectResults limit acc rest
  | some e :: rest =>
    let duration := e.duration.getD 0
    if duration > 900 then collectResults limit acc rest
    else
      let acc2 := acc ++ [mkYTrack e duration]
      if limit + 3 ≤ acc2.length then acc2
      else collectResults limit acc2 rest

/-- The in-memory search cache `_search_cache`: a Python dict from cache
key to candidate list, in insertion order. -/
abbrev Cache := List (String × List YTrack)

/-- Python `str.lower()`, character by character. -/
def pyLower (s : String) : String := String.mk (s.data.map Char.toLower)

/-- `_cache_key` (youtube.py lines 65-67): the MD5 hex digest of the
case-folded query.  The digest step is abstracted away (modelled as the
identity on the case-folded query): it is injective for modelling
purposes. -/
def cache_key (query : String) : String := pyLower query

/-- `_save_cache` (youtube.py lines 53-62), viewed as the cache image it
persists: `dict(list(cache.items())[-1000:])` keeps only the last 1000
entries in insertion order.  The in-memory cache itself is not truncated. -/
def save_cache (m : Cache) : Cache := m.drop (m.length - 1000)

/-- Result of one `search_youtube` call: the returned list, the in-memory
cache afterwards, and whether the provider was actually contacted. -/
structure SearchOut where
  results : List YTrack
  cache : Cache
  providerCalled : Bool
deriving DecidableEq

/-- `search_youtube` (youtube.py lines 97-181) over a provider oracle
mapping the constructed `ytsearch` URL to its outcome.  The cache is
checked first when `use_cache` is set; results are cached (and the cache
flushed) only when non-empty; any provider exception yields `[]`. -/
def search_youtube (provider : String → SearchResp) (cache : Cache) (query : String)
    (limit : Nat) (music_only : Bool) (use_cache : Bool) : SearchOut :=
  let key := cache_key query
  match (if use_cache then dictFind cache key else none) with
  | some cached => ⟨cached.take limit, cache, false⟩
  | none =>
    let search_query := if music_only then query ++ (" audio") else query
    let search_url := ("ytsearch") ++ toString (limit + 5) ++ (":") ++ search_query
    match provider search_url with
    | .exc => ⟨[], cache, true⟩
    | .noResult => ⟨[], cache, true⟩
    | .entries es =>
      if es.isEmpty then ⟨[], cache, true⟩
      else
        let results := collectResults limit [] es
        if results.isEmpty then ⟨[], cache, true⟩
        else ⟨results.take limit, dictInsert cache key results, true⟩

/-- Repeatedly submits queries through `search_youtube` (limit 1, music
search, cache enabled), threading the in-memory cache. -/
def runSearches (provider : String → SearchResp) (cache : Cache)
    (queries : List String) : Cache :=
  queries.foldl (fun c q => (search_youtube provider c q 1 true true).cache) cache

/-! ## Track download (src/musiccli/youtube.py, lines 184-283) -/

/-- Outcome of one `ydl.extract_info(url, download=True)` call: an
exception, a falsy info dict, or success with the filename
`ydl.prepare_filename(info)` predicts and the set of files present in
the output directory afterwards. -/
inductive DlOutcome where
  | exc : DlOutcome
  | noInfo : DlOutcome
  | ok (expectedFile : String) (existingFiles : List String) : DlOutcome

/-- Index of the last occurrence of a character in a list (Python
`str.rfind`, as an `Option` instead of `-1`). -/
def rfindIdx (cs : List Char) (c : Char) : Option Nat :=
  ((cs.enum.filter (fun p => p.2 == c)).map (fun p => p.1)).getLast?

/-- The root part of `os.path.splitext` (POSIX rules): split at the last
dot that comes after the last path separator and after at least one
non-dot character of the basename (so purely-leading dots never start an
extension). -/
def splitextBase (p : String) : String :=
  let cs := p.data
  let sepIndex : Int := match rfindIdx cs ('/') with | some n => (n : Int) | none => -1
  let dotIndex : Int := match rfindIdx cs ('.') with | some n => (n : Int) | none => -1
  if sepIndex < dotIndex then
    let lo := (sepIndex + 1).toNat
    let hi := dotIndex.toNat
    if (List.range' lo (hi - lo)).any (fun j => !(cs.getD j ('.') == ('.'))) then
      String.mk (cs.take hi)
    else p
  else p

/-- `download_track` (youtube.py lines 184-283) over a fetch oracle for
the `yt-dlp` download call.  The yt-dlp options, post-processors and
progress hooks only configure that call and are absorbed by the oracle;
the embedded logic is the exception handling and the final-file
resolution: prefer the expected filename with its extension replaced by
the target format, fall back to the expected filename itself, else
report failure as `none`. -/
def download_track (fetch : String → DlOutcome) (url : String) (output_dir : String)
    (filename_template : String) (fmt : String) (quality : String) : Option String :=
  match fetch url with
  | .exc => none
  | .noInfo => none
  | .ok expectedFile existingFiles =>
    let base := splitextBase expectedFile
    let finalFile := base ++ (".") ++ fmt
    if existingFiles.contains finalFile then some finalFile
    else if existingFiles.contains expectedFile then some expectedFile
    else none

/-! ## Batch download (src/musiccli/youtube.py, lines 286-362) -/

/-- The `artists` value of a track dict: a plain string or a list.
Artist list entries are modelled as plain strings (the source's
dict-shaped entries reduce to their `name` field, which the string
represents directly). -/
inductive ArtistsField where
  | str (v : String) : ArtistsField
  | list (vs : List String) : ArtistsField
deriving DecidableEq

/-- A track dict as consumed by `download_tracks_batch` (and by
`build_search_query`): the keys the source reads.  Absent keys are
`none`. -/
structure BTrack where
  id : Option String
  name : Option String
  artists : Option ArtistsField
  album_name : Option String
  youtube_url : Option String
deriving DecidableEq

/-- Python `str.strip()`: drop whitespace from both ends. -/
def pyStrip (s : String) : String :=
  String.mk (((s.data.dropWhile Char.isWhitespace).reverse.dropWhile Char.isWhitespace).reverse)

/-- `build_search_query` (youtube.py lines 70-94) with the three
`re.sub` noise-stripping substitutions abstracted as the pure oracle
`sub` (they map a query string to a query string). -/
def build_search_query (sub : String → String) (track : BTrack) : String :=
  let artists :=
    match track.artists with
    | none => ("")
    | some (.str v) => v
    | some (.list vs) =>
      match vs with
      | [] => ("")
      | a :: _ => a
  let title := track.name.getD ("")
  let query := pyStrip (artists ++ (" ") ++ title)
  pyStrip (sub query)

/-- `re.sub(r'[<>:"/\\|?*]', '', s)` (youtube.py line 337): strip the
characters illegal in filenames. -/
def sanitizeName (s : String) : String :=
  String.mk (s.data.filter (fun c =>
    !(([ ('<'), ('>'), (':'), ('"'), ('/'), ('\\'), ('|'), ('?'), ('*') ] : List Char).contains c)))

/-- The progress statuses that `download_tracks_batch` can emit plus
`skipped`, which the CLI progress callbacks (cli.py lines 554-568 and
760-769) are prepared to receive. -/
inductive BStatus where
  | searching : BStatus
  | not_found : BStatus
  | downloading : BStatus
  | completed : BStatus
  | failed : BStatus
  | skipped : BStatus
deriving DecidableEq

/-- One `progress_callback(track_name, status, info)` invocation. -/
structure BEvent where
  name : String
  status : BStatus
  detail : Option String
deriving DecidableEq

/-- The observable state threaded through `download_tracks_batch`: the
`results` dict, the emitted progress events, the provider network calls
made (search URLs actually sent, download URLs fetched), and the
in-memory search cache. -/
structure BatchState where
  results : List (String × Option String)
  events : List BEvent
  searchCalls : List String
  fetchCalls : List String
  cache : Cache
deriving DecidableEq

/-- The download phase of one batch iteration (youtube.py lines 330-360):
build and sanitize the output filename, emit `downloading`, fetch, record
the outcome in `results`, and emit the terminal `completed`/`failed`
event. -/
def batchDownload (fetch : String → DlOutcome) (output_dir : String) (fmt : String)
    (quality : String) (track_id : String) (track_name : String) (artist_str : String)
    (url : String) (st : BatchState) : BatchState :=
  let safe_name := sanitizeName (artist_str ++ (" - ") ++ track_name)
  let st1 := { st with events := st.events ++ [(⟨track_name, .downloading, some ("0%")⟩ : BEvent)] }
  let fp := download_track fetch url output_dir safe_name fmt quality
  let st2 := { st1 with
    fetchCalls := st1.fetchCalls ++ [url]
    results := dictInsert st1.results track_id fp }
  { st2 with events := st2.events ++
      [(⟨track_name, if fp.isSome then .completed else .failed, fp⟩ : BEvent)] }

/-- One iteration of the `download_tracks_batch` loop (youtube.py lines
308-360) for the track at position `i` of `n`: emit `searching`, resolve
a URL (given `youtube_url`, or the first search result, searching with
`limit=1` and the cache enabled), then download, or record `not_found`
when the search yields nothing. -/
def batchStep (sub : String → String) (provider : String → SearchResp)
    (fetch : String → DlOutcome) (output_dir : String) (fmt : String) (quality : String)
    (n : Nat) (i : Nat) (st : BatchState) (track : BTrack) : BatchState :=
  let track_id := track.id.getD (toString i)
  let track_name := track.name.getD ("Unknown")
  let artists := track.artists.getD (ArtistsField.str ("Unknown Artist"))
  let artist_str :=
    match artists with
    | .str v => v
    | .list vs => String.intercalate (", ") vs
  let st0 := { st with events := st.events ++
      [(⟨track_name, .searching, some (toString (i + 1) ++ ("/") ++ toString n)⟩ : BEvent)] }
  match (if pyTruthy track.youtube_url then track.youtube_url else none) with
  | some url => batchDownload fetch output_dir fmt quality track_id track_name artist_str url st0
  | none =>
    let query := build_search_query sub track
    let so := search_youtube provider st0.cache query 1 true true
    let st1 := { st0 with
      cache := so.cache
      searchCalls := st0.searchCalls ++ (if so.providerCalled then [query] else []) }
    match so.results with
    | [] =>
      { st1 with
        events := st1.events ++ [(⟨track_name, .not_found, none⟩ : BEvent)]
        results := dictInsert st1.results track_id none }
    | r :: _ => batchDownload fetch output_dir fmt quality track_id track_name artist_str r.url st1

/-- The indexed loop of `download_tracks_batch` over the remaining
tracks, `i` being the position of the first of them. -/
def batchGo (sub : String → String) (provider : String → SearchResp)
    (fetch : String → DlOutcome) (output_dir : String) (fmt : String) (quality : String)
    (n : Nat) (i : Nat) (st : BatchState) : List BTrack → BatchState
  | [] => st
  | t :: ts =>
    batchGo sub provider fetch output_dir fmt quality n (i + 1)
      (batchStep sub provider fetch output_dir fmt quality n i st t) ts

/-- `download_tracks_batch` (youtube.py lines 286-362): a sequential
fold over the input tracks, starting from an empty results dict and the
given in-memory search cache.  Its Python signature is
`(tracks, output_dir, format, quality, progress_callback)`; it accepts
no `skip_existing`, `max_retries` or `max_workers` arguments. -/
def download_tracks_batch (sub : String → String) (provider : String → SearchResp)
    (fetch : String → DlOutcome) (cache : Cache) (output_dir : String) (fmt : String)
    (quality : String) (tracks : List BTrack) : BatchState :=
  batchGo sub provider fetch output_dir fmt quality tracks.length 0
    ⟨[], [], [], [], cache⟩ tracks

/-- The counter updates of the `playlist` command's progress callback
(cli.py lines 554-568): `completed` counts as downloaded, `skipped` as
skipped, and `failed` or `not_found` as failed (the source tests
`'failed' in status or status == 'not_found'`); `searching` and
`downloading` update only the displayed description. -/
structure CliCounts where
  downloaded : Nat
  skipped : Nat
  failed : Nat
deriving DecidableEq

/-- One progress-callback invocation's effect on the CLI counters. -/
def cliCountStep (c : CliCounts) (ev : BEvent) : CliCounts :=
  match ev.status with
  | .completed => { c with downloaded := c.downloaded + 1 }
  | .skipped => { c with skipped := c.skipped + 1 }
  | .failed => { c with failed := c.failed + 1 }
  | .not_found => { c with failed := c.failed + 1 }
  | .searching => c
  | .downloading => c

/-- The CLI counters after a sequence of progress events. -/
def cliCounts (evs : List BEvent) : CliCounts :=
  evs.foldl cliCountStep ⟨0, 0, 0⟩

/-! ## Concrete oracles and inputs used in examples and witnesses -/

/-- A single usable provider entry: no duration given (defaults to 0,
under the 900-second ceiling). -/
def e0 : YtEntry :=
  { id := some ("vid0"), title := some ("Title0"), url := some ("u0"),
    duration := none, channel := none, uploader := none, view_count := none }

/-- The formatted result built from `e0`. -/
def y0 : YTrack := mkYTrack e0 0

/-- A provider that answers every search with the single entry `e0`. -/
def p0 : String → SearchResp := fun _ => SearchResp.entries [some e0]

/-- A provider whose every search raises. -/
def excProvider : String → SearchResp := fun _ => SearchResp.exc

/-- A fetch call that always raises. -/
def excFetch : String → DlOutcome := fun _ => DlOutcome.exc

/-- A fetch call that always succeeds: yt-dlp predicts a `.webm` file and
the post-processed `.mp3` exists in the output directory afterwards. -/
def okFetch : String → DlOutcome :=
  fun _ => DlOutcome.ok ("downloads/Artist - Song.webm") [("downloads/Artist - Song.mp3")]

/-- The identity noise-stripping oracle (queries containing no noise
suffixes are left unchanged by the source's three substitutions). -/
def subId : String → String := fun q => q

/-- A concrete batch track with an id and no preset `youtube_url`. -/
def bt0 : BTrack :=
  { id := some ("X"), name := some ("Song"), artists := some (.str ("Artist")),
    album_name := none, youtube_url := none }

/-- The query `n` of an unbounded family of pairwise-distinct queries
that are fixed by case-folding: `n` repetitions of the letter `a`. -/
def rep (n : Nat) : String := String.mk (List.replicate n ('a'))

/-- 1001 pairwise-distinct queries among which two pairs differ only by
letter case (`B`/`b` and `C`/`c`), so they produce only 999 distinct
cache keys. -/
def c8qs : List String := ((List.range 997).map rep) ++ [("B"), ("b"), ("C"), ("c")]

/-- 1001 pairwise-distinct queries with pairwise-distinct cache keys. -/
def w8qs : List String := (List.range 1001).map rep

/-- A provider against which every search (at limit 1) yields a
non-empty usable candidate list, so every cache miss inserts an entry. -/
def alwaysUsable (provider : String → SearchResp) : Prop :=
  ∀ u, ∃ es, provider u = SearchResp.entries es ∧ collectResults 1 [] es ≠ []

/-! ## Reconciliation lemmas -/

theorem classify_id (db : String → Option DbTrack) (fi : String → Option FileInfo)
    (t : PTrack) : (classifyTrack db fi t).id = t.id.getD ("") := by
  simp only [classifyTrack]
  cases db (t.id.getD ("")) with
  | none => rfl
  | some dbt =>
    cases fi (t.id.getD ("")) with
    | none => rfl
    | some f => by_cases h : f.status = some ("success") <;> simp [h]

theorem classify_status_eq_rule (db : String → Option DbTrack)
    (fi : String → Option FileInfo) (t : PTrack) :
    (classifyTrack db fi t).status = claimStatusRule db fi (t.id.getD ("")) := by
  simp only [classifyTrack, claimStatusRule]
  cases db (t.id.getD ("")) with
  | none => rfl
  | some dbt =>
    cases fi (t.id.getD ("")) with
    | none => rfl
    | some f => by_cases h : f.status = some ("success") <;> simp [h]

theorem classify_file_info (db : String → Option DbTrack)
    (fi : String → Option FileInfo) (t : PTrack) :
    (classifyTrack db fi t).file_info
      = if (db (t.id.getD (""))).isSome then fi (t.id.getD ("")) else none := by
  simp only [classifyTrack]
  cases db (t.id.getD ("")) with
  | none => rfl
  | some dbt =>
    cases fi (t.id.getD ("")) with
    | none => rfl
    | some f => by_cases h : f.status = some ("success") <;> simp [h]

theorem classify_status_cases (db : String → Option DbTrack)
    (fi : String → Option FileInfo) (t : PTrack) :
    (classifyTrack db fi t).status = ("available")
    ∨ (classifyTrack db fi t).status = ("missing")
    ∨ (classifyTrack db fi t).status = ("not_in_db") := by
  simp only [classifyTrack]
  cases db (t.id.getD ("")) with
  | none => simp
  | some dbt =>
    cases fi (t.id.getD ("")) with
    | none => simp
    | some f => by_cases h : f.status = some ("success") <;> simp [h]

theorem statBump_total (s : PStats) (status : String) :
    (statBump s status).total = s.total := by
  by_cases h1 : status = ("available") <;> by_cases h2 : status = ("missing") <;>
    by_cases h3 : status = ("not_in_db") <;> simp [statBump, h1, h2, h3]

theorem statBump_sum (s : PStats) (status : String)
    (h : status = ("available") ∨ status = ("missing") ∨ status = ("not_in_db")) :
    (statBump s status).available + (statBump s status).missing
      + (statBump s status).not_in_db
      = s.available + s.missing + s.not_in_db + 1 := by
  rcases h with h | h | h <;> subst h <;> simp [statBump] <;> omega

theorem reconcile_fold_fst (db : String → Option DbTrack) (fi : String → Option FileInfo) :
    ∀ (ts : List PTrack) (acc : List RTrack × PStats),
      (List.foldl (reconcileStep db fi) acc ts).1
        = acc.1 ++ (ts.filter (fun t => pyTruthy t.id)).map (classifyTrack db fi) := by
  intro ts
  induction ts with
  | nil => intro acc; simp
  | cons t ts ih =>
    intro acc
    by_cases h : pyTruthy t.id <;>
      simp [List.foldl_cons, List.filter_cons, h, ih, reconcileStep]

theorem reconcile_fold_total (db : String → Option DbTrack) (fi : String → Option FileInfo) :
    ∀ (ts : List PTrack) (acc : List RTrack × PStats),
      (List.foldl (reconcileStep db fi) acc ts).2.total = acc.2.total := by
  intro ts
  induction ts with
  | nil => intro acc; rfl
  | cons t ts ih =>
    intro acc
    by_cases h : pyTruthy t.id <;>
      simp [List.foldl_cons, h, ih, reconcileStep, statBump_total]

theorem reconcile_fold_sum (db : String → Option DbTrack) (fi : String → Option FileInfo) :
    ∀ (ts : List PTrack) (acc : List RTrack × PStats),
      (List.foldl (reconcileStep db fi) acc ts).2.available
        + (List.foldl (reconcileStep db fi) acc ts).2.missing
        + (List.foldl (reconcileStep db fi) acc ts).2.not_in_db
        = acc.2.available + acc.2.missing + acc.2.not_in_db
          + (ts.filter (fun t => pyTruthy t.id)).length := by
  intro ts
  induction ts with
  | nil => intro acc; simp
  | cons t ts ih =>
    intro acc
    by_cases h : pyTruthy t.id
    · simp only [List.foldl_cons, List.filter_cons, h, if_pos, reconcileStep, ih]
      have hb := statBump_sum acc.2 (classifyTrack db fi t).status
        (classify_status_cases db fi t)
      simp only [List.length_cons]
      omega
    · simp [List.foldl_cons, List.filter_cons, h, ih, reconcileStep]

theorem reconcile_results (db : String → Option DbTrack) (fi : String → Option FileInfo)
    (tracks : List PTrack) :
    (playlistReconcile db fi tracks).1
      = (tracks.filter (fun t => pyTruthy t.id)).map (classifyTrack db fi) := by
  unfold playlistReconcile
  rw [reconcile_fold_fst]
  simp

theorem reconcile_ids (db : String → Option DbTrack) (fi : String → Option FileInfo)
    (tracks : List PTrack) :
    ((playlistReconcile db fi tracks).1).map (fun r => r.id)
      = (tracks.filter (fun t => pyTruthy t.id)).map (fun t => t.id.getD ("")) := by
  rw [reconcile_results, List.map_map]
  exact List.map_congr_left (fun t _ => classify_id db fi t)

/-! ## Claims C1, C2, C3 -/

/-- C1: for every input track that has an external id, the reconciliation
status follows exactly the claimed rule (absent from the metadata lookup
means not_in_db; a file-info record with success status means available;
a file-info record with any other status means missing; no file-info
record at all means available), the file info is attached whenever
present, and on the 3-track example [A, B, C] the statuses come out as
[available, missing, not_in_db] with summary total 3, available 1,
missing 1, not_in_db 1. -/
theorem C1_reconcile_status_rule :
    (∀ (db : String → Option DbTrack) (fi : String → Option FileInfo) (t : PTrack),
      (classifyTrack db fi t).status = claimStatusRule db fi (t.id.getD (""))) ∧
    (∀ (db : String → Option DbTrack) (fi : String → Option FileInfo) (t : PTrack),
      (classifyTrack db fi t).file_info
        = if (db (t.id.getD (""))).isSome then fi (t.id.getD ("")) else none) ∧
    ((playlistReconcile exDb exFi exTracks).1.map (fun r => r.status)
        = [("available"), ("missing"), ("not_in_db")]) ∧
    (playlistReconcile exDb exFi exTracks).2 = ⟨3, 1, 1, 1⟩ :=
  ⟨classify_status_eq_rule, classify_file_info, by decide, by decide⟩

/-- C2 counterexample: a playlist whose single track has no id produces
an empty classified list — zero entries for one input track, so
reconciliation is not length-preserving as claimed. -/
theorem C2_counterexample :
    (playlistReconcile emptyDb emptyFi [noIdTrack]).1.length = 0
      ∧ [noIdTrack].length = 1 := by
  constructor
  · decide
  · rfl

/-- C2 amended: reconciliation emits exactly one entry per input track
that has a truthy external id, in input order, with matching ids; tracks
without an id are dropped.  When every input track has an id this is the
claimed length- and order-preserving mapping. -/
theorem C2_order_preserving_amended :
    (∀ (db : String → Option DbTrack) (fi : String → Option FileInfo)
        (tracks : List PTrack),
      ((playlistReconcile db fi tracks).1).map (fun r => r.id)
        = (tracks.filter (fun t => pyTruthy t.id)).map (fun t => t.id.getD (""))) ∧
    (∀ (db : String → Option DbTrack) (fi : String → Option FileInfo)
        (tracks : List PTrack), (∀ t ∈ tracks, pyTruthy t.id = true) →
      ((playlistReconcile db fi tracks).1).map (fun r => r.id)
          = tracks.map (fun t => t.id.getD (""))
        ∧ ((playlistReconcile db fi tracks).1).length = tracks.length) := by
  constructor
  · exact reconcile_ids
  · intro db fi tracks h
    have hfilter : tracks.filter (fun t => pyTruthy t.id) = tracks :=
      List.filter_eq_self.mpr h
    constructor
    · rw [reconcile_ids, hfilter]
    · have := congrArg List.length (reconcile_ids db fi tracks)
      simp only [List.length_map, hfilter] at this
      exact this

/-- Witness for the amended C2 at the 3-track example, whose tracks all
carry ids. -/
theorem C2_witness :
    ((playlistReconcile exDb exFi exTracks).1).map (fun r => r.id)
        = exTracks.map (fun t => t.id.getD (""))
      ∧ ((playlistReconcile exDb exFi exTracks).1).length = exTracks.length :=
  C2_order_preserving_amended.2 exDb exFi exTracks (by decide)

/-- C3 counterexample: a playlist of two tracks, one of them without an
id, yields summary counts whose sum is 1 while total is 2 — the claimed
available + missing + not_in_db == total fails. -/
theorem C3_counterexample :
    ((playlistReconcile emptyDb emptyFi [idATrack, noIdTrack]).2.available
      + (playlistReconcile emptyDb emptyFi [idATrack, noIdTrack]).2.missing
      + (playlistReconcile emptyDb emptyFi [idATrack, noIdTrack]).2.not_in_db = 1)
    ∧ (playlistReconcile emptyDb emptyFi [idATrack, noIdTrack]).2.total = 2 := by
  constructor
  · decide
  · decide

/-- C3 amended: available + missing + not_in_db equals the number of
input tracks bearing a truthy external id, while total counts all input
tracks — so the claimed equality with total holds exactly when every
track has an id. -/
theorem C3_sum_amended :
    ∀ (db : String → Option DbTrack) (fi : String → Option FileInfo)
      (tracks : List PTrack),
      (playlistReconcile db fi tracks).2.available
        + (playlistReconcile db fi tracks).2.missing
        + (playlistReconcile db fi tracks).2.not_in_db
        = (tracks.filter (fun t => pyTruthy t.id)).length
      ∧ (playlistReconcile db fi tracks).2.total = tracks.length := by
  intro db fi tracks
  constructor
  · unfold playlistReconcile
    rw [reconcile_fold_sum]
    simp
  · unfold playlistReconcile
    rw [reconcile_fold_total]

/-! ## Dictionary and search-cache lemmas -/

theorem dictFind_cons {α : Type} (p : String × α) (m : List (String × α)) (k : String) :
    dictFind (p :: m) k = if p.1 == k then some p.2 else dictFind m k := by
  by_cases h : p.1 == k <;> simp [dictFind, List.find?, h]

theorem dictFind_eq_none {α : Type} {m : List (String × α)} {k : String}
    (h : hasKey m k = false) : dictFind m k = none := by
  induction m with
  | nil => rfl
  | cons p m ih =>
    simp only [hasKey, List.any_cons, Bool.or_eq_false_iff] at h
    rw [dictFind_cons, if_neg (by simp [h.1]), ih]
    simpa [hasKey] using h.2

theorem hasKey_find {α : Type} {m : List (String × α)} {k : String}
    (h : hasKey m k = true) : ∃ v, dictFind m k = some v := by
  induction m with
  | nil => simp [hasKey] at h
  | cons p m ih =>
    by_cases hp : p.1 == k
    · exact ⟨p.2, by rw [dictFind_cons, if_pos hp]⟩
    · have hm : hasKey m k = true := by
        simp only [hasKey, List.any_cons, Bool.or_eq_true] at h
        rcases h with h | h
        · exact absurd h hp
        · exact h
      obtain ⟨v, hv⟩ := ih hm
      exact ⟨v, by rw [dictFind_cons, if_neg hp, hv]⟩

theorem dictInsert_fresh {α : Type} {m : List (String × α)} {k : String} (v : α)
    (h : hasKey m k = false) : dictInsert m k v = m ++ [(k, v)] := by
  simp [dictInsert, h]

theorem dictFind_append_of_fresh {α : Type} {m : List (String × α)} {k : String}
    (l : List (String × α)) (h : hasKey m k = false) :
    dictFind (m ++ l) k = dictFind l k := by
  induction m with
  | nil => rfl
  | cons p m ih =>
    simp only [hasKey, List.any_cons, Bool.or_eq_false_iff] at h
    rw [List.cons_append, dictFind_cons, if_neg (by simp [h.1])]
    exact ih h.2

theorem dictFind_map_update {α : Type} (m : List (String × α)) (k : String) (v : α)
    (h : hasKey m k = true) :
    dictFind (m.map (fun p => if p.1 == k then (k, v) else p)) k = some v := by
  induction m with
  | nil => simp [hasKey] at h
  | cons p m ih =>
    by_cases hp : p.1 == k
    · simp only [List.map_cons, if_pos hp]
      rw [dictFind_cons]
      simp
    · simp only [List.map_cons, if_neg hp]
      rw [dictFind_cons, if_neg hp]
      apply ih
      simp only [hasKey, List.any_cons, Bool.or_eq_true] at h
      rcases h with h | h
      · exact absurd h hp
      · exact h

theorem dictFind_dictInsert_self {α : Type} (m : List (String × α)) (k : String) (v : α) :
    dictFind (dictInsert m k v) k = some v := by
  by_cases h : hasKey m k
  · rw [dictInsert, if_pos h]
    exact dictFind_map_update m k v h
  · have h0 : hasKey m k = false := by simpa using h
    rw [dictInsert_fresh v h0, dictFind_append_of_fresh _ h0, dictFind_cons]
    simp

theorem hasKey_append {α : Type} (m1 m2 : List (String × α)) (k : String) :
    hasKey (m1 ++ m2) k = (hasKey m1 k || hasKey m2 k) := by
  simp [hasKey, List.any_append]

theorem hasKey_eq_any_keys {α : Type} (m : List (String × α)) (k : String) :
    hasKey m k = (m.map Prod.fst).any (fun x => x == k) := by
  induction m with
  | nil => rfl
  | cons p m ih =>
    simp only [hasKey, List.any_cons, List.map_cons] at ih ⊢
    rw [ih]

/-! ## Claim C9 -/

/-- C9: once a search for a query has returned a non-empty candidate
list, submitting the same query again with the cache enabled, the same
limit, and the cache within its size cap returns the identical
candidates with no provider invocation and no cache change; and two
queries equal up to letter case produce the same cache key (the key
being derived from the case-folded query). -/
theorem C9_repeat_query :
    (∀ (provider : String → SearchResp) (cache : Cache) (q : String) (limit : Nat),
      cache.length ≤ 1000 →
      (search_youtube provider cache q limit true true).results ≠ [] →
      search_youtube provider (search_youtube provider cache q limit true true).cache
          q limit true true
        = ⟨(search_youtube provider cache q limit true true).results,
           (search_youtube provider cache q limit true true).cache, false⟩) ∧
    (∀ q1 q2 : String, pyLower q1 = pyLower q2 → cache_key q1 = cache_key q2) := by
  constructor
  · intro provider cache q limit hcap hne
    cases hfind : dictFind cache (cache_key q) with
    | some c =>
      simp only [search_youtube, if_true, hfind]
    | none =>
      cases hp : provider (("ytsearch") ++ toString (limit + 5) ++ (":") ++ (q ++ (" audio"))) with
      | exc =>
        exfalso; apply hne
        simp only [search_youtube, if_true, hfind, hp]
      | noResult =>
        exfalso; apply hne
        simp only [search_youtube, if_true, hfind, hp]
      | entries es =>
        cases hes : es.isEmpty with
        | true =>
          exfalso; apply hne
          simp only [search_youtube, if_true, hfind, hp, hes]
        | false =>
          cases hres : (collectResults limit [] es).isEmpty with
          | true =>
            exfalso; apply hne
            simp only [search_youtube, if_true, hfind, hp, hes, hres]
            simp
          | false =>
            simp only [search_youtube, if_true, hfind, hp, hes, hres,
              Bool.false_eq_true, if_false, dictFind_dictInsert_self]
  · intro q1 q2 h
    simp [cache_key, h]

/-- Witness for C9 at a concrete provider, empty cache, and the queries
`queen` and `Queen`/`queen` for the case-folding part. -/
theorem C9_witness :
    (search_youtube p0 (search_youtube p0 [] ("queen") 1 true true).cache ("queen") 1 true true
      = ⟨(search_youtube p0 [] ("queen") 1 true true).results,
         (search_youtube p0 [] ("queen") 1 true true).cache, false⟩)
    ∧ cache_key ("Queen") = cache_key ("queen") :=
  ⟨C9_repeat_query.1 p0 [] ("queen") 1 (by decide) (by decide),
   C9_repeat_query.2 ("Queen") ("queen") (by decide)⟩

/-! ## Claim C8: cache truncation lemmas -/

theorem search_hit (provider : String → SearchResp) (cache : Cache) (q : String) (limit : Nat)
    (h : hasKey cache (cache_key q) = true) :
    (search_youtube provider cache q limit true true).cache = cache := by
  obtain ⟨v, hv⟩ := hasKey_find h
  simp only [search_youtube, if_true, hv]

theorem search_store (provider : String → SearchResp) (hu : alwaysUsable provider)
    (cache : Cache) (q : String) (h : hasKey cache (cache_key q) = false) :
    ∃ v : List YTrack,
      (search_youtube provider cache q 1 true true).cache = cache ++ [(cache_key q, v)] := by
  have hfind : dictFind cache (cache_key q) = none := dictFind_eq_none h
  obtain ⟨es, hes, hne⟩ := hu (("ytsearch") ++ toString (1 + 5) ++ (":") ++ (q ++ (" audio")))
  refine ⟨collectResults 1 [] es, ?_⟩
  have hesne : es.isEmpty = false := by
    cases es with
    | nil => simp [collectResults] at hne
    | cons a l => rfl
  have hresne : (collectResults 1 [] es).isEmpty = false := by
    cases hc : collectResults 1 [] es with
    | nil => exact absurd hc hne
    | cons a l => rfl
  simp only [search_youtube, if_true, hfind, hes, hesne, hresne, Bool.false_eq_true, if_false]
  exact dictInsert_fresh _ h

theorem runSearches_nil (provider : String → SearchResp) (c : Cache) :
    runSearches provider c [] = c := rfl

theorem runSearches_cons (provider : String → SearchResp) (c : Cache) (q : String)
    (qs : List String) :
    runSearches provider c (q :: qs)
      = runSearches provider ((search_youtube provider c q 1 true true).cache) qs := rfl

theorem runSearches_append (provider : String → SearchResp) (c : Cache)
    (qs1 qs2 : List String) :
    runSearches provider c (qs1 ++ qs2)
      = runSearches provider (runSearches provider c qs1) qs2 := by
  simp [runSearches, List.foldl_append]

theorem runSearches_fresh_keys (provider : String → SearchResp) (hu : alwaysUsable provider) :
    ∀ (qs : List String) (c : Cache),
      (∀ q ∈ qs, hasKey c (cache_key q) = false) → ((qs.map cache_key).Nodup) →
      (runSearches provider c qs).map Prod.fst = c.map Prod.fst ++ qs.map cache_key := by
  intro qs
  induction qs with
  | nil => intro c _ _; simp [runSearches]
  | cons q qs ih =>
    intro c hfresh hnd
    obtain ⟨v, hv⟩ := search_store provider hu c q (hfresh q (List.mem_cons_self q qs))
    have hmap : (cache_key q :: qs.map cache_key).Nodup := by simpa using hnd
    have hknotin : cache_key q ∉ qs.map cache_key := (List.nodup_cons.mp hmap).1
    have hfresh' : ∀ q' ∈ qs, hasKey (c ++ [(cache_key q, v)]) (cache_key q') = false := by
      intro q' hq'
      rw [hasKey_append, hfresh q' (List.mem_cons_of_mem _ hq')]
      have hne : cache_key q ≠ cache_key q' := by
        intro hcontra
        exact hknotin (hcontra ▸ List.mem_map_of_mem cache_key hq')
      simp [hasKey, hne]
    rw [runSearches_cons, hv, ih _ hfresh' (List.nodup_cons.mp hmap).2]
    simp

theorem cache_key_rep (n : Nat) : cache_key (rep n) = rep n := by
  simp only [cache_key, pyLower, rep]
  rw [List.map_replicate]
  rw [show Char.toLower ('a') = ('a') from by decide]

theorem rep_inj : Function.Injective rep := by
  intro m n h
  have h2 : List.replicate m ('a') = List.replicate n ('a') := congrArg String.data h
  have h3 := congrArg List.length h2
  simpa using h3

theorem rep_ne_single (n : Nat) (ch : Char) (hch : ch ≠ ('a')) : rep n ≠ String.mk [ch] := by
  intro h
  have h2 : List.replicate n ('a') = [ch] := congrArg String.data h
  cases n with
  | zero => simp at h2
  | succ n =>
    rw [List.replicate_succ] at h2
    simp at h2
    exact hch h2.1.symm

theorem rep_ne_B (n : Nat) : rep n ≠ ("B") := rep_ne_single n ('B') (by decide)

theorem rep_ne_b (n : Nat) : rep n ≠ ("b") := rep_ne_single n ('b') (by decide)

theorem rep_ne_C (n : Nat) : rep n ≠ ("C") := rep_ne_single n ('C') (by decide)

theorem rep_ne_c (n : Nat) : rep n ≠ ("c") := rep_ne_single n ('c') (by decide)

theorem keys_map_rep (k : Nat) :
    ((List.range k).map rep).map cache_key = (List.range k).map rep := by
  rw [List.map_map]
  exact List.map_congr_left (fun n _ => cache_key_rep n)

theorem alwaysUsable_p0 : alwaysUsable p0 :=
  fun _ => ⟨[some e0], rfl, by decide⟩

/-- C8 amended: after submitting 1001 queries whose case-folded cache
keys are pairwise distinct (each insertion flushing the cache), the
persisted cache image holds exactly 1000 entries and is precisely the
in-memory cache minus its first (least-recently-inserted) entry. -/
theorem C8_truncation_amended (provider : String → SearchResp) (qs : List String)
    (hu : alwaysUsable provider) (hkeys : (qs.map cache_key).Nodup) (hlen : qs.length = 1001) :
    (save_cache (runSearches provider [] qs)).length = 1000
    ∧ save_cache (runSearches provider [] qs) = (runSearches provider [] qs).drop 1 := by
  have hk := runSearches_fresh_keys provider hu qs [] (fun q _ => rfl) hkeys
  have hL : (runSearches provider [] qs).length = 1001 := by
    have h2 := congrArg List.length hk
    simpa [hlen] using h2
  constructor
  · simp [save_cache, hL]
  · simp [save_cache, hL]

/-- Witness for the amended C8 at the concrete family of 1001 queries
`a`-repeated-n-times, whose keys are pairwise distinct. -/
theorem C8_witness :
    (save_cache (runSearches p0 [] w8qs)).length = 1000
    ∧ save_cache (runSearches p0 [] w8qs) = (runSearches p0 [] w8qs).drop 1 :=
  C8_truncation_amended p0 w8qs alwaysUsable_p0
    (by rw [w8qs, keys_map_rep]; exact (List.nodup_range 1001).map rep_inj)
    (by simp [w8qs])

/-- C8 counterexample: 1001 pairwise-distinct queries among which two
pairs differ only by letter case produce only 999 distinct cache keys, so
the flushed cache holds 999 entries — not exactly 1000 as claimed. -/
theorem C8_counterexample :
    c8qs.Nodup ∧ c8qs.length = 1001
    ∧ (save_cache (runSearches p0 [] c8qs)).length = 999 := by
  have hpart_nodup : ((List.range 997).map rep).Nodup := (List.nodup_range 997).map rep_inj
  refine ⟨?_, by simp [c8qs], ?_⟩
  · rw [show c8qs = ((List.range 997).map rep) ++ [("B"), ("b"), ("C"), ("c")] from rfl,
      List.nodup_append]
    refine ⟨hpart_nodup, by decide, ?_⟩
    intro a ha hb
    obtain ⟨n, _, rfl⟩ := List.mem_map.mp ha
    simp only [List.mem_cons, List.not_mem_nil, or_false] at hb
    rcases hb with h | h | h | h
    · exact rep_ne_B n h
    · exact rep_ne_b n h
    · exact rep_ne_C n h
    · exact rep_ne_c n h
  · set c1 := runSearches p0 [] ((List.range 997).map rep) with hc1
    have hkeys1 : c1.map Prod.fst = (List.range 997).map rep := by
      rw [hc1, runSearches_fresh_keys p0 alwaysUsable_p0 ((List.range 997).map rep) []
        (fun q _ => rfl) (by rw [keys_map_rep]; exact hpart_nodup)]
      simp only [List.map_nil, List.nil_append]
      exact keys_map_rep 997
    have hlen1 : c1.length = 997 := by
      have h2 := congrArg List.length hkeys1
      simpa using h2
    have hkb : hasKey c1 ("b") = false := by
      rw [hasKey_eq_any_keys, hkeys1, List.any_eq_false]
      intro x hx
      obtain ⟨n, _, rfl⟩ := List.mem_map.mp hx
      simpa using rep_ne_b n
    have hkc : hasKey c1 ("c") = false := by
      rw [hasKey_eq_any_keys, hkeys1, List.any_eq_false]
      intro x hx
      obtain ⟨n, _, rfl⟩ := List.mem_map.mp hx
      simpa using rep_ne_c n
    obtain ⟨v1, hv1⟩ := search_store p0 alwaysUsable_p0 c1 ("B")
      (by rw [show cache_key ("B") = ("b") from by decide]; exact hkb)
    rw [show cache_key ("B") = ("b") from by decide] at hv1
    have hd1b : hasKey ((search_youtube p0 c1 ("B") 1 true true).cache)
        (cache_key ("b")) = true := by
      rw [hv1, show cache_key ("b") = ("b") from by decide, hasKey_append, hkb]
      simp [hasKey]
    have hv2 := search_hit p0 ((search_youtube p0 c1 ("B") 1 true true).cache) ("b") 1 hd1b
    have hd1c : hasKey ((search_youtube p0 c1 ("B") 1 true true).cache)
        (cache_key ("C")) = false := by
      rw [hv1, show cache_key ("C") = ("c") from by decide, hasKey_append, hkc]
      simp [hasKey, show (("b" : String) == ("c")) = false from by decide]
    obtain ⟨v3, hv3⟩ := search_store p0 alwaysUsable_p0
      ((search_youtube p0 c1 ("B") 1 true true).cache) ("C") hd1c
    rw [show cache_key ("C") = ("c") from by decide] at hv3
    have hd3c : hasKey ((search_youtube p0 ((search_youtube p0 c1 ("B") 1 true true).cache)
        ("C") 1 true true).cache) (cache_key ("c")) = true := by
      rw [hv3, show cache_key ("c") = ("c") from by decide, hasKey_append]
      simp [hasKey]
    have hv4 := search_hit p0 ((search_youtube p0 ((search_youtube p0 c1 ("B") 1 true true).cache)
        ("C") 1 true true).cache) ("c") 1 hd3c
    have hfinal : runSearches p0 [] c8qs
        = ((search_youtube p0 ((search_youtube p0 c1 ("B") 1 true true).cache)
            ("C") 1 true true).cache) := by
      rw [show c8qs = ((List.range 997).map rep) ++ [("B"), ("b"), ("C"), ("c")] from rfl,
        runSearches_append, ← hc1, runSearches_cons, runSearches_cons, runSearches_cons,
        runSearches_cons, runSearches_nil, hv2, hv4]
    have hflen : (runSearches p0 [] c8qs).length = 999 := by
      rw [hfinal, hv3, hv1]
      simp [hlen1]
    simp [save_cache, hflen]

/-! ## Batch-download lemmas and claims C4-C7, C10 -/

theorem cliCounts_foldl (evs : List BEvent) : ∀ c : CliCounts,
    evs.foldl cliCountStep c
      = ⟨c.downloaded + (cliCounts evs).downloaded,
         c.skipped + (cliCounts evs).skipped,
         c.failed + (cliCounts evs).failed⟩ := by
  induction evs with
  | nil => intro c; simp [cliCounts]
  | cons ev evs ih =>
    intro c
    rw [List.foldl_cons, ih (cliCountStep c ev),
      show cliCounts (ev :: evs) = evs.foldl cliCountStep (cliCountStep ⟨0, 0, 0⟩ ev) from rfl,
      ih (cliCountStep ⟨0, 0, 0⟩ ev)]
    cases hev : ev.status <;> simp [cliCountStep, hev] <;> omega

theorem cliCounts_append (a b : List BEvent) :
    cliCounts (a ++ b)
      = ⟨(cliCounts a).downloaded + (cliCounts b).downloaded,
         (cliCounts a).skipped + (cliCounts b).skipped,
         (cliCounts a).failed + (cliCounts b).failed⟩ := by
  rw [cliCounts, List.foldl_append, ← cliCounts, cliCounts_foldl]

theorem batchDownload_counts (fetch : String → DlOutcome) (od fmt qual tid tn astr url : String)
    (st : BatchState) :
    ((cliCounts (batchDownload fetch od fmt qual tid tn astr url st).events).downloaded
        + (cliCounts (batchDownload fetch od fmt qual tid tn astr url st).events).skipped
        + (cliCounts (batchDownload fetch od fmt qual tid tn astr url st).events).failed
      = (cliCounts st.events).downloaded + (cliCounts st.events).skipped
        + (cliCounts st.events).failed + 1)
    ∧ (cliCounts (batchDownload fetch od fmt qual tid tn astr url st).events).skipped
      = (cliCounts st.events).skipped := by
  simp only [batchDownload]
  split <;> simp [cliCounts_append, cliCounts, cliCountStep] <;> omega

theorem batchStep_counts (sub : String → String) (provider : String → SearchResp)
    (fetch : String → DlOutcome) (od fmt qual : String) (n i : Nat)
    (st : BatchState) (t : BTrack) :
    ((cliCounts (batchStep sub provider fetch od fmt qual n i st t).events).downloaded
        + (cliCounts (batchStep sub provider fetch od fmt qual n i st t).events).skipped
        + (cliCounts (batchStep sub provider fetch od fmt qual n i st t).events).failed
      = (cliCounts st.events).downloaded + (cliCounts st.events).skipped
        + (cliCounts st.events).failed + 1)
    ∧ (cliCounts (batchStep sub provider fetch od fmt qual n i st t).events).skipped
      = (cliCounts st.events).skipped := by
  simp only [batchStep, batchDownload]
  repeat' split
  all_goals simp [cliCounts_append, cliCounts, cliCountStep]
  all_goals omega

theorem batchGo_counts (sub : String → String) (provider : String → SearchResp)
    (fetch : String → DlOutcome) (od fmt qual : String) (nn : Nat) :
    ∀ (ts : List BTrack) (i : Nat) (st : BatchState),
      ((cliCounts (batchGo sub provider fetch od fmt qual nn i st ts).events).downloaded
          + (cliCounts (batchGo sub provider fetch od fmt qual nn i st ts).events).skipped
          + (cliCounts (batchGo sub provider fetch od fmt qual nn i st ts).events).failed
        = (cliCounts st.events).downloaded + (cliCounts st.events).skipped
          + (cliCounts st.events).failed + ts.length)
      ∧ (cliCounts (batchGo sub provider fetch od fmt qual nn i st ts).events).skipped
        = (cliCounts st.events).skipped := by
  intro ts
  induction ts with
  | nil => intro i st; simp [batchGo]
  | cons t ts ih =>
    intro i st
    obtain ⟨h1, h2⟩ := batchStep_counts sub provider fetch od fmt qual nn i st t
    obtain ⟨h3, h4⟩ :=
      ih (i + 1) (batchStep sub provider fetch od fmt qual nn i st t)
    rw [show batchGo sub provider fetch od fmt qual nn i st (t :: ts)
        = batchGo sub provider fetch od fmt qual nn (i + 1)
            (batchStep sub provider fetch od fmt qual nn i st t) ts from rfl]
    simp only [List.length_cons]
    constructor <;> omega

theorem batchStep_fetchCalls_le (sub : String → String) (provider : String → SearchResp)
    (fetch : String → DlOutcome) (od fmt qual : String) (n i : Nat)
    (st : BatchState) (t : BTrack) :
    (batchStep sub provider fetch od fmt qual n i st t).fetchCalls.length
      ≤ st.fetchCalls.length + 1 := by
  simp only [batchStep, batchDownload]
  repeat' split
  all_goals simp

theorem batchGo_fetchCalls_le (sub : String → String) (provider : String → SearchResp)
    (fetch : String → DlOutcome) (od fmt qual : String) (nn : Nat) :
    ∀ (ts : List BTrack) (i : Nat) (st : BatchState),
      (batchGo sub provider fetch od fmt qual nn i st ts).fetchCalls.length
        ≤ st.fetchCalls.length + ts.length := by
  intro ts
  induction ts with
  | nil => intro i st; simp [batchGo]
  | cons t ts ih =>
    intro i st
    have h1 := batchStep_fetchCalls_le sub provider fetch od fmt qual nn i st t
    have h2 := ih (i + 1) (batchStep sub provider fetch od fmt qual nn i st t)
    rw [show batchGo sub provider fetch od fmt qual nn i st (t :: ts)
        = batchGo sub provider fetch od fmt qual nn (i + 1)
            (batchStep sub provider fetch od fmt qual nn i st t) ts from rfl]
    simp only [List.length_cons]
    omega

theorem batchStep_noskip (sub : String → String) (provider : String → SearchResp)
    (fetch : String → DlOutcome) (od fmt qual : String) (n i : Nat)
    (st : BatchState) (t : BTrack)
    (h : st.events.all (fun ev => !(ev.status == BStatus.skipped)) = true) :
    (batchStep sub provider fetch od fmt qual n i st t).events.all
      (fun ev => !(ev.status == BStatus.skipped)) = true := by
  simp only [batchStep, batchDownload]
  repeat' split
  all_goals simp [List.all_append, h]

theorem batchGo_noskip (sub : String → String) (provider : String → SearchResp)
    (fetch : String → DlOutcome) (od fmt qual : String) (nn : Nat) :
    ∀ (ts : List BTrack) (i : Nat) (st : BatchState),
      st.events.all (fun ev => !(ev.status == BStatus.skipped)) = true →
      (batchGo sub provider fetch od fmt qual nn i st ts).events.all
        (fun ev => !(ev.status == BStatus.skipped)) = true := by
  intro ts
  induction ts with
  | nil => intro i st h; simpa [batchGo] using h
  | cons t ts ih =>
    intro i st h
    exact ih (i + 1) _ (batchStep_noskip sub provider fetch od fmt qual nn i st t h)

theorem dictInsert_keys_update {α : Type} {m : List (String × α)} {k : String} (v : α)
    (h : hasKey m k = true) :
    (dictInsert m k v).map Prod.fst = m.map Prod.fst := by
  rw [dictInsert, if_pos h, List.map_map]
  apply List.map_congr_left
  intro p _
  by_cases hp : p.1 == k
  · simp only [Function.comp]
    rw [if_pos hp]
    exact (eq_of_beq hp).symm
  · simp only [Function.comp]
    rw [if_neg hp]

theorem dictInsert_nodupKeys {α : Type} (m : List (String × α)) (k : String) (v : α)
    (h : (m.map Prod.fst).Nodup) :
    ((dictInsert m k v).map Prod.fst).Nodup := by
  by_cases hk : hasKey m k
  · rwa [dictInsert_keys_update v hk]
  · have hk0 : hasKey m k = false := by simpa using hk
    rw [dictInsert_fresh v hk0, List.map_append, List.nodup_append]
    refine ⟨h, by simp, ?_⟩
    intro a ha hb
    simp only [List.map_cons, List.map_nil, List.mem_singleton] at hb
    subst hb
    rw [hasKey_eq_any_keys] at hk0
    exact absurd (by simp : (a == a) = true)
      (by simpa using (List.any_eq_false.mp hk0) a ha)

theorem hasKey_dictInsert_self {α : Type} (m : List (String × α)) (k : String) (v : α) :
    hasKey (dictInsert m k v) k = true := by
  by_cases hk : hasKey m k
  · rw [hasKey_eq_any_keys, dictInsert_keys_update v hk, ← hasKey_eq_any_keys]
    exact hk
  · have hk0 : hasKey m k = false := by simpa using hk
    rw [dictInsert_fresh v hk0, hasKey_append]
    simp [hasKey]

theorem hasKey_dictInsert_mono {α : Type} {m : List (String × α)} {k' : String}
    (k : String) (v : α) (h : hasKey m k' = true) :
    hasKey (dictInsert m k v) k' = true := by
  by_cases hk : hasKey m k
  · rw [hasKey_eq_any_keys, dictInsert_keys_update v hk, ← hasKey_eq_any_keys]
    exact h
  · have hk0 : hasKey m k = false := by simpa using hk
    rw [dictInsert_fresh v hk0, hasKey_append, h]
    rfl

theorem batchStep_results_nodupKeys (sub : String → String) (provider : String → SearchResp)
    (fetch : String → DlOutcome) (od fmt qual : String) (n i : Nat)
    (st : BatchState) (t : BTrack)
    (h : (st.results.map Prod.fst).Nodup) :
    ((batchStep sub provider fetch od fmt qual n i st t).results.map Prod.fst).Nodup := by
  simp only [batchStep, batchDownload]
  repeat' split
  all_goals exact dictInsert_nodupKeys _ _ _ h

theorem batchGo_results_nodupKeys (sub : String → String) (provider : String → SearchResp)
    (fetch : String → DlOutcome) (od fmt qual : String) (nn : Nat) :
    ∀ (ts : List BTrack) (i : Nat) (st : BatchState),
      (st.results.map Prod.fst).Nodup →
      ((batchGo sub provider fetch od fmt qual nn i st ts).results.map Prod.fst).Nodup := by
  intro ts
  induction ts with
  | nil => intro i st h; simpa [batchGo] using h
  | cons t ts ih =>
    intro i st h
    exact ih (i + 1) _ (batchStep_results_nodupKeys sub provider fetch od fmt qual nn i st t h)

theorem batchStep_results_hasKey_self (sub : String → String) (provider : String → SearchResp)
    (fetch : String → DlOutcome) (od fmt qual : String) (n i : Nat)
    (st : BatchState) (t : BTrack) :
    hasKey (batchStep sub provider fetch od fmt qual n i st t).results
      (t.id.getD (toString i)) = true := by
  simp only [batchStep, batchDownload]
  repeat' split
  all_goals exact hasKey_dictInsert_self _ _ _

theorem batchStep_results_hasKey_mono (sub : String → String) (provider : String → SearchResp)
    (fetch : String → DlOutcome) (od fmt qual : String) (n i : Nat)
    (st : BatchState) (t : BTrack) (k : String) (h : hasKey st.results k = true) :
    hasKey (batchStep sub provider fetch od fmt qual n i st t).results k = true := by
  simp only [batchStep, batchDownload]
  repeat' split
  all_goals exact hasKey_dictInsert_mono _ _ h

theorem batchGo_results_hasKey_mono (sub : String → String) (provider : String → SearchResp)
    (fetch : String → DlOutcome) (od fmt qual : String) (nn : Nat) :
    ∀ (ts : List BTrack) (i : Nat) (st : BatchState) (k : String),
      hasKey st.results k = true →
      hasKey (batchGo sub provider fetch od fmt qual nn i st ts).results k = true := by
  intro ts
  induction ts with
  | nil => intro i st k h; simpa [batchGo] using h
  | cons t ts ih =>
    intro i st k h
    exact ih (i + 1) _ k (batchStep_results_hasKey_mono sub provider fetch od fmt qual nn i st t k h)

theorem batchGo_results_hasKey (sub : String → String) (provider : String → SearchResp)
    (fetch : String → DlOutcome) (od fmt qual : String) (nn : Nat) :
    ∀ (ts : List BTrack) (j : Nat) (i : Nat) (st : BatchState) (h : j < ts.length),
      hasKey (batchGo sub provider fetch od fmt qual nn i st ts).results
        ((ts.get ⟨j, h⟩).id.getD (toString (i + j))) = true := by
  intro ts
  induction ts with
  | nil => intro j i st h; exact absurd h (by simp)
  | cons t ts ih =>
    intro j i st h
    rw [show batchGo sub provider fetch od fmt qual nn i st (t :: ts)
        = batchGo sub provider fetch od fmt qual nn (i + 1)
            (batchStep sub provider fetch od fmt qual nn i st t) ts from rfl]
    cases j with
    | zero =>
      simp only [List.get, Nat.add_zero]
      exact batchGo_results_hasKey_mono sub provider fetch od fmt qual nn ts (i + 1) _ _
        (batchStep_results_hasKey_self sub provider fetch od fmt qual nn i st t)
    | succ j =>
      have hj : j < ts.length := by simpa using h
      have := ih j (i + 1) (batchStep sub provider fetch od fmt qual nn i st t) hj
      rw [show i + (j + 1) = (i + 1) + j from by omega]
      simpa using this

/-- C4 (what the code actually does): the batch downloader that exists is
sequential — it accepts no max_workers at all — and for every input list
(unique ids or not) the CLI counters derived from its progress events
satisfy downloaded + skipped + failed = number of tracks, with skipped
always 0 (no skip path exists).  The in-repo call that passes
max_workers/skip_existing/max_retries raises TypeError instead. -/
theorem C4_sequential_conservation :
    ∀ (sub : String → String) (provider : String → SearchResp) (fetch : String → DlOutcome)
      (cache : Cache) (od fmt qual : String) (tracks : List BTrack),
      ((cliCounts (download_tracks_batch sub provider fetch cache od fmt qual tracks).events).downloaded
          + (cliCounts (download_tracks_batch sub provider fetch cache od fmt qual tracks).events).skipped
          + (cliCounts (download_tracks_batch sub provider fetch cache od fmt qual tracks).events).failed
        = tracks.length)
      ∧ (cliCounts (download_tracks_batch sub provider fetch cache od fmt qual tracks).events).skipped
        = 0 := by
  intro sub provider fetch cache od fmt qual tracks
  have h := batchGo_counts sub provider fetch od fmt qual tracks.length tracks 0
    ⟨[], [], [], [], cache⟩
  simpa [download_tracks_batch, cliCounts] using h

/-- C5 (what the code actually does): there is no retry loop — a track
whose fetch always fails is attempted exactly once (one provider fetch
call, one failed event), and over any input the number of fetch calls
never exceeds the number of tracks, so no track is ever attempted
max_retries (> 1) times. -/
theorem C5_single_attempt :
    ((download_tracks_batch subId p0 excFetch [] ("downloads") ("mp3") ("320") [bt0]).fetchCalls.length = 1
      ∧ (cliCounts (download_tracks_batch subId p0 excFetch [] ("downloads") ("mp3") ("320") [bt0]).events).failed = 1)
    ∧ ∀ (sub : String → String) (provider : String → SearchResp) (fetch : String → DlOutcome)
        (cache : Cache) (od fmt qual : String) (tracks : List BTrack),
        (download_tracks_batch sub provider fetch cache od fmt qual tracks).fetchCalls.length
          ≤ tracks.length := by
  constructor
  · exact ⟨by decide, by decide⟩
  · intro sub provider fetch cache od fmt qual tracks
    have h := batchGo_fetchCalls_le sub provider fetch od fmt qual tracks.length tracks 0
      ⟨[], [], [], [], cache⟩
    simpa [download_tracks_batch] using h

/-- C6 (what the code actually does): the batch downloader never emits a
skipped event for any input and any oracle behaviour, and even when the
derived output file already exists in the output directory it still
contacts the provider (one search call) and downloads (one fetch call) —
there is no skip_existing support. -/
theorem C6_no_skip_support :
    (∀ (sub : String → String) (provider : String → SearchResp) (fetch : String → DlOutcome)
        (cache : Cache) (od fmt qual : String) (tracks : List BTrack),
        (download_tracks_batch sub provider fetch cache od fmt qual tracks).events.all
          (fun ev => !(ev.status == BStatus.skipped)) = true)
    ∧ ((download_tracks_batch subId p0 okFetch [] ("downloads") ("mp3") ("320") [bt0]).searchCalls.length = 1
        ∧ (download_tracks_batch subId p0 okFetch [] ("downloads") ("mp3") ("320") [bt0]).fetchCalls.length = 1) := by
  constructor
  · intro sub provider fetch cache od fmt qual tracks
    exact batchGo_noskip sub provider fetch od fmt qual tracks.length tracks 0
      ⟨[], [], [], [], cache⟩ rfl
  · exact ⟨by decide, by decide⟩

/-- C7 counterexample: a two-element input consisting of the same track
(one distinct external id) triggers two provider fetches — duplicates are
not deduplicated before dispatch as claimed. -/
theorem C7_counterexample :
    (download_tracks_batch subId p0 okFetch [] ("downloads") ("mp3") ("320") [bt0, bt0]).fetchCalls.length = 2
    ∧ ([bt0, bt0].map (fun t => t.id)).dedup.length = 1 := by
  exact ⟨by decide, by decide⟩

/-- C7 amended: duplicates are dispatched once per occurrence, but the
results mapping is keyed by external id, so it ends with at most one
entry per distinct id (later occurrences overwrite earlier ones). -/
theorem C7_results_unique_amended :
    ∀ (sub : String → String) (provider : String → SearchResp) (fetch : String → DlOutcome)
      (cache : Cache) (od fmt qual : String) (tracks : List BTrack),
      (((download_tracks_batch sub provider fetch cache od fmt qual tracks).results.map
        Prod.fst)).Nodup := by
  intro sub provider fetch cache od fmt qual tracks
  exact batchGo_results_nodupKeys sub provider fetch od fmt qual tracks.length tracks 0
    ⟨[], [], [], [], cache⟩ (by simp)

/-- C10: every failure of the fetch call (exception, falsy info dict, or
neither expected output file present) makes download_track return the
typed failure none; a provider exception makes search_youtube return []
with the cache unchanged; and the batch loop records an outcome for every
submitted track no matter how the oracles fail — per-task failures never
abort the batch. -/
theorem C10_typed_failures :
    (∀ (url od tmpl fmt qual : String), download_track excFetch url od tmpl fmt qual = none)
    ∧ (∀ (url od tmpl fmt qual : String),
        download_track (fun _ => DlOutcome.noInfo) url od tmpl fmt qual = none)
    ∧ (∀ (fetch : String → DlOutcome) (url od tmpl fmt qual expected : String)
        (fs : List String), fetch url = DlOutcome.ok expected fs →
        fs.contains (splitextBase expected ++ (".") ++ fmt) = false →
        fs.contains expected = false →
        download_track fetch url od tmpl fmt qual = none)
    ∧ (∀ (cache : Cache) (q : String) (limit : Nat) (m : Bool),
        (search_youtube excProvider cache q limit m false).results = []
        ∧ (search_youtube excProvider cache q limit m false).cache = cache)
    ∧ (∀ (sub : String → String) (provider : String → SearchResp) (fetch : String → DlOutcome)
        (cache : Cache) (od fmt qual : String) (tracks : List BTrack) (i : Nat)
        (h : i < tracks.length),
        hasKey (download_tracks_batch sub provider fetch cache od fmt qual tracks).results
          ((tracks.get ⟨i, h⟩).id.getD (toString i)) = true) := by
  refine ⟨?_, ?_, ?_, ?_, ?_⟩
  · intro url od tmpl fmt qual
    simp [download_track, excFetch]
  · intro url od tmpl fmt qual
    simp [download_track]
  · intro fetch url od tmpl fmt qual expected fs hf h1 h2
    have h1m : (splitextBase expected ++ (".") ++ fmt) ∉ fs := by simpa using h1
    have h2m : expected ∉ fs := by simpa using h2
    simp [download_track, hf, h1m, h2m]
  · intro cache q limit m
    constructor <;> simp [search_youtube, excProvider]
  · intro sub provider fetch cache od fmt qual tracks i h
    have := batchGo_results_hasKey sub provider fetch od fmt qual tracks.length tracks i 0
      ⟨[], [], [], [], cache⟩ h
    simpa [download_tracks_batch] using this

/-- Witness for C10 at concrete failing fetches, a raising provider, and
a one-track batch whose fetch always raises. -/
theorem C10_witness :
    download_track excFetch ("u") ("o") ("t") ("mp3") ("320") = none
    ∧ download_track (fun _ => DlOutcome.noInfo) ("u") ("o") ("t") ("mp3") ("320") = none
    ∧ download_track (fun _ => DlOutcome.ok ("song.webm") []) ("u") ("o") ("t") ("mp3") ("320") = none
    ∧ (search_youtube excProvider [] ("q") 1 true false).results = []
    ∧ hasKey (download_tracks_batch subId p0 excFetch [] ("downloads") ("mp3") ("320") [bt0]).results
        ("X") = true := by
  obtain ⟨h1, h2, h3, h4, h5⟩ := C10_typed_failures
  refine ⟨h1 ("u") ("o") ("t") ("mp3") ("320"), h2 ("u") ("o") ("t") ("mp3") ("320"),
    h3 (fun _ => DlOutcome.ok ("song.webm") []) ("u") ("o") ("t") ("mp3") ("320")
      ("song.webm") [] rfl (by decide) (by decide),
    (h4 [] ("q") 1 true).1, ?_⟩
  have := h5 subId p0 excFetch [] ("downloads") ("mp3") ("320") [bt0] 0 (by decide)
  simpa [bt0] using this
